import Mathlib

/-!
Verification of the RBAC reconciler of the operator repository
(`pkg/reconciler/openshift/tektonconfig/rbac.go`).

The Go code is shallowly embedded as pure Lean functions.  Kubernetes API
objects become records; every API mutation is modelled as a pure state
transformation, and the number of `Update` calls issued is threaded through
explicitly so that idempotence claims can be stated.  Collaborator functions
that live outside the provided sources (the SCC priority service, the owner
reference constructors) are modelled from the specification and marked as
such in their doc comments.
-/

namespace RbacModel

/-- Fixed object name `pipelines-scc-role` (rbac.go line 49). -/
def pipelinesSCCRole : String := "pipelines-scc-role"

/-- Fixed object name `pipelines-scc-clusterrole` (rbac.go line 50). -/
def pipelinesSCCClusterRole : String := "pipelines-scc-clusterrole"

/-- Fixed object name `pipelines-scc-rolebinding` (rbac.go line 51). -/
def pipelinesSCCRoleBinding : String := "pipelines-scc-rolebinding"

/-- Fixed workload identity name `pipeline` (rbac.go line 52). -/
def pipelineSA : String := "pipeline"

/-- Fixed legacy binding name `openshift-pipelines-edit` (rbac.go line 53). -/
def PipelineRoleBinding : String := "openshift-pipelines-edit"

/-- Fixed cluster visibility role and binding name (rbac.go line 62). -/
def clusterInterceptors : String := "openshift-pipelines-clusterinterceptors"

/-- Config parameter name `createRbacResource` (rbac.go line 69). -/
def rbacParamName : String := "createRbacResource"

/-- Config parameter name `createCABundleConfigMaps` (rbac.go line 70). -/
def trustedCABundleParamName : String := "createCABundleConfigMaps"

/-- Config parameter name `legacyPipelineRbac` (rbac.go line 71). -/
def legacyPipelineRbacParamName : String := "legacyPipelineRbac"

/-- An `rbacv1.Subject`: the fields the reconciler reads and writes. -/
structure Subject where
  kind : String
  name : String
  ns : String
deriving DecidableEq, Repr

/-- A `metav1.OwnerReference`: the fields the reconciler compares. -/
structure OwnerReference where
  apiVersion : String
  kind : String
  name : String
deriving DecidableEq, Repr

/-- An `rbacv1.RoleRef`. -/
structure RoleRef where
  apiGroup : String
  kind : String
  name : String
deriving DecidableEq, Repr

/-- An `rbacv1.RoleBinding` (also used for `ClusterRoleBinding`, which has the
same shape as far as this reconciler is concerned). -/
structure RoleBinding where
  roleRef : RoleRef
  subjects : List Subject
  ownerRefs : List OwnerReference
deriving DecidableEq, Repr

/-- A `corev1.ServiceAccount`: the fields the reconciler touches. -/
structure ServiceAccount where
  name : String
  ns : String
  ownerRefs : List OwnerReference
deriving DecidableEq, Repr

/-- An `rbacv1.Role` holding a single SCC `use` rule: the reconciler only ever
writes roles whose rule names one SCC (rbac.go lines 803-825). -/
structure Role where
  ownerRefs : List OwnerReference
  sccName : String
deriving DecidableEq, Repr

/-- A `v1alpha1.Param` of the TektonConfig spec. -/
structure Param where
  name : String
  value : String
deriving DecidableEq, Repr

/-- The key `fmt.Sprintf("%s/%s/%s", Kind, Name, Namespace)` used by
`CompareSubjects` and `mergeSubjects` (rbac.go lines 1015, 1044). -/
def subjectKey (s : Subject) : String :=
  s.kind ++ "/" ++ s.name ++ "/" ++ s.ns

/-- `hasSubject` (rbac.go lines 994-1001): membership by Name, Kind and
Namespace. -/
def hasSubject (subjects : List Subject) (x : Subject) : Bool :=
  subjects.any (fun v => v.name == x.name && v.kind == x.kind && v.ns == x.ns)

/-- `CompareSubjects` (rbac.go lines 1004-1036): equality of the two subject
lists ignoring order, via sets of keys. -/
def CompareSubjects (list1 list2 : List Subject) : Bool :=
  if list1.length != list2.length then false
  else
    let set1 := (list1.map subjectKey).dedup
    let set2 := (list2.map subjectKey).dedup
    if set1.length != set2.length then false
    else set1.all (fun k => set2.contains k)

/-- `mergeSubjects` (rbac.go lines 1038-1063): keeps the first list and
appends the members of the second list whose key is not already present in
the first list.  The tracking set is built from the first list only. -/
def mergeSubjects (subjects x : List Subject) : List Subject :=
  let existingSubjects := subjects.map subjectKey
  subjects ++ x.filter (fun s => !(existingSubjects.contains (subjectKey s)))

/-- `hasOwnerRefernce` (rbac.go lines 1065-1072, name kept as in the source):
membership by APIVersion, Kind and Name. -/
def hasOwnerRefernce (old : List OwnerReference) (new : OwnerReference) : Bool :=
  old.any (fun v => v.apiVersion == new.apiVersion && v.kind == new.kind && v.name == new.name)

/-- Does `ref` agree with `own` on APIVersion, Kind and Name?  This is the
comparison of rbac.go line 1349. -/
def refMatches (own ref : OwnerReference) : Bool :=
  ref.apiVersion == own.apiVersion && ref.kind == own.kind && ref.name == own.name

/-- `removeAndUpdate` (rbac.go lines 1358-1362): drop the element at index
`s` and append the reconciler's owner reference. -/
def removeAndUpdate (own : OwnerReference) (slice : List OwnerReference) (s : Nat) :
    List OwnerReference :=
  (slice.take s ++ slice.drop (s + 1)) ++ [own]

/-- Index of the first reference differing from `own`, mirroring the loop of
`updateOwnerRefs` (rbac.go lines 1348-1353), which returns on the first
mismatch. -/
def findFirstMismatch (own : OwnerReference) (refs : List OwnerReference) : Option Nat :=
  refs.findIdx? (fun ref => !(refMatches own ref))

/-- `updateOwnerRefs` (rbac.go lines 1343-1356): an empty list becomes the
singleton of the reconciler's owner reference; otherwise the first mismatching
reference (if any) is removed and the reconciler's reference appended; a list
whose members all match is returned unchanged. -/
def updateOwnerRefs (own : OwnerReference) (refs : List OwnerReference) :
    List OwnerReference :=
  if refs.length = 0 then [own]
  else
    match findFirstMismatch own refs with
    | some i => removeAndUpdate own refs i
    | none => refs

/-- The in-place value fix of `setDefault` (rbac.go lines 171-173, 177-179,
183-185): a value other than `"true"`/`"false"` is replaced by `"true"`. -/
def fixParamValue (v : String) : String :=
  if v != "false" && v != "true" then "true" else v

/-- One step of the `setDefault` loop (rbac.go lines 167-187): parameters
named after one of the three toggles get their value fixed, others are left
alone. -/
def fixParam (p : Param) : Param :=
  if p.name == rbacParamName || p.name == legacyPipelineRbacParamName ||
      p.name == trustedCABundleParamName then
    { p with value := fixParamValue p.value }
  else p

/-- The last configured value for parameter `n`: the `setDefault` loop keeps
overwriting `createRbacResourceValue` on every match, so the last entry
wins (rbac.go line 170). -/
def lastParamValue (params : List Param) (n : String) : Option String :=
  ((params.filter (fun p => p.name == n)).getLast?).map (fun p => p.value)

/-- `setDefault` (rbac.go lines 163-213).  Fixes malformed values of the
three toggle parameters; appends `createRbacResource` and
`legacyPipelineRbac` with default `"true"` when absent; appends
`createCABundleConfigMaps` when absent, defaulting to `"false"` when
`createRbacResource` was configured with value `"false"` (the upgrade
workaround of lines 201-212) and to `"true"` otherwise. -/
def setDefault (params : List Param) : List Param :=
  let rbacParamFound := params.any (fun p => p.name == rbacParamName)
  let legacyParamFound := params.any (fun p => p.name == legacyPipelineRbacParamName)
  let caBundleParamFound := params.any (fun p => p.name == trustedCABundleParamName)
  let createRbacResourceValue := lastParamValue params rbacParamName
  let fixed0 := params.map fixParam
  let fixed1 := if rbacParamFound then fixed0 else fixed0 ++ [⟨rbacParamName, "true"⟩]
  let fixed2 := if legacyParamFound then fixed1
    else fixed1 ++ [⟨legacyPipelineRbacParamName, "true"⟩]
  if caBundleParamFound then fixed2
  else
    let defaultVal :=
      if rbacParamFound && (createRbacResourceValue == some "false") then "false" else "true"
    fixed2 ++ [⟨trustedCABundleParamName, defaultVal⟩]

/-- Modelled from the spec: `tektonConfigOwnerRef` is defined outside the
provided sources (it is a sibling helper of rbac.go in the same package).
It builds an owner reference pointing at the parent TektonConfig
configuration resource, so its Kind is `TektonConfig`. -/
def tektonConfigOwnerRef (name : String) : OwnerReference :=
  ⟨"operator.tekton.dev/v1alpha1", "TektonConfig", name⟩

/-- Modelled from the spec: `configOwnerRef` is defined outside the provided
sources.  It builds the owner reference carried as `r.ownerRef`, pointing at
the RBAC installer set (the per-release bookkeeping object), so its Kind is
`TektonInstallerSet`. -/
def configOwnerRef (name : String) : OwnerReference :=
  ⟨"operator.tekton.dev/v1alpha1", "TektonInstallerSet", name⟩

/-- `createSA` (rbac.go lines 774-795): creates the `pipeline` service
account owned by the TektonConfig.  The returned `Nat` counts `Update` API
calls (a create issues none). -/
def createSA (tcOwnerRef : OwnerReference) (nsName : String) : ServiceAccount × Nat :=
  (⟨pipelineSA, nsName, [tcOwnerRef]⟩, 0)

/-- `ensureSA` (rbac.go lines 753-772): when the service account is missing
it is created; when it exists its owner references are overwritten with the
single TektonConfig owner reference and an `Update` call is issued
unconditionally (lines 767-771).  The `Nat` counts `Update` calls. -/
def ensureSA (tcOwnerRef : OwnerReference) (nsName : String)
    (existing : Option ServiceAccount) : ServiceAccount × Nat :=
  match existing with
  | none => createSA tcOwnerRef nsName
  | some sa => ({ sa with ownerRefs := [tcOwnerRef] }, 1)

/-- `updateRoleBinding` (rbac.go lines 952-992): appends the service account
subject when missing, overwrites the role reference, repairs the owner
references, and issues an `Update` when the owner reference was missing
(line 971) and another when the subject was missing or the repaired owner
list is empty (line 985).  Returns the written binding and the number of
`Update` calls. -/
def updateRoleBinding (own : OwnerReference) (rb : RoleBinding)
    (saName saNs : String) (roleRef : RoleRef) : RoleBinding × Nat :=
  let subject : Subject := ⟨"ServiceAccount", saName, saNs⟩
  let hs := hasSubject rb.subjects subject
  let subjects := if hs then rb.subjects else rb.subjects ++ [subject]
  let hor := hasOwnerRefernce rb.ownerRefs own
  let ors := updateOwnerRefs own rb.ownerRefs
  let rb' : RoleBinding := { roleRef := roleRef, subjects := subjects, ownerRefs := ors }
  let u1 := if hor then 0 else 1
  if hs && !ors.isEmpty then (rb', u1) else (rb', u1 + 1)

/-- `removeIndex` (rbac.go lines 1199-1201): drop the element at `index`. -/
def removeIndex (s : List Subject) (index : Nat) : List Subject :=
  s.take index ++ s.drop (index + 1)

/-- The pruning loop of `removeAndUpdateNSFromCI` (rbac.go lines 1180-1188):
walks an index over the (shrinking) subject list; at each step, if the size
of the labelled-namespace map differs from the current subject-list length
and the subject at the index has a namespace outside the map, that subject
is removed; the index advances by one in every case, so the element shifted
into a removal position is never examined.  `nsMap` is the deduplicated list
of namespace names currently labelled with the target version. -/
def pruneLoop (nsMap : List String) (subs : List Subject) (i : Nat) (upd : Bool) :
    List Subject × Bool :=
  if h : i < subs.length then
    if nsMap.length ≠ subs.length then
      if nsMap.contains (subs.get ⟨i, h⟩).ns then
        pruneLoop nsMap subs (i + 1) upd
      else
        pruneLoop nsMap (removeIndex subs i) (i + 1) true
    else
      pruneLoop nsMap subs (i + 1) upd
  else (subs, upd)
termination_by subs.length - i
decreasing_by
  · omega
  · simp only [removeIndex, List.length_append, List.length_take, List.length_drop]
    omega
  · omega

/-- Namespace metadata the reconciler reads: name, the SCC request
annotation (empty string when absent, matching Go map-lookup semantics),
the two version labels, and the deletion timestamp flag. -/
structure NsMeta where
  name : String
  ann : String
  rbacLabel : String
  caLabel : String
  deleting : Bool
deriving DecidableEq, Repr

/-- The namespaced API objects the reconciler manages in one namespace.
`trustedCM`/`serviceCM` record whether the two CA-bundle config maps
exist. -/
structure NsObjects where
  sa : Option ServiceAccount
  sccRole : Option Role
  sccRB : Option RoleBinding
  editRB : Option RoleBinding
  trustedCM : Bool
  serviceCM : Bool
deriving DecidableEq, Repr

/-- A namespace together with its managed objects. -/
structure NsEntry where
  meta : NsMeta
  obj : NsObjects
deriving DecidableEq, Repr

/-- Cluster-scoped state: presence of the bookkeeping installer set, the
shared SCC cluster role, the `edit` cluster role, the clusterinterceptors
role, the clusterinterceptors binding, and all namespaces. -/
structure GlobalState where
  isetExists : Bool
  sccClusterRole : Option Role
  editClusterRoleExists : Bool
  ciClusterRoleExists : Bool
  ciBinding : Option RoleBinding
  nss : List NsEntry
deriving DecidableEq, Repr

/-- The error outcomes of the reconciler that the claims distinguish. -/
inductive RErr where
  | reconcileAgain
  | emptyDefaultSCC
  | sccNotFound (scc : String)
  | sccMissingFromList
  | policyViolation
  | nsPolicyViolation (ns scc : String)
  | roleNotFound
  | clusterRoleNotFound
  | badRoleKind (kind : String)
deriving DecidableEq, Repr

/-- The reconciler configuration: release version, TektonConfig params, the
SCC settings, the cluster SCC priority list, and the two owner references
(`r.ownerRef` and the TektonConfig reference used by `ensureSA`). -/
structure RConfig where
  version : String
  params : List Param
  sccDefault : String
  sccMaxAllowed : String
  sccList : List String
  ownerRef : OwnerReference
  tcOwnerRef : OwnerReference
deriving DecidableEq, Repr

/-- Modelled from the spec: `common.GetSCCRestrictiveList` and
`common.SCCAMoreRestrictiveThanB` are defined outside the provided sources.
The spec describes an externally supplied total order over named security
policies by restrictiveness, realised as an index lookup over an ordered
sequence of policy names; we order the list from most to least restrictive,
so policy A is at least as restrictive as policy B exactly when the index of
A is at most the index of B.  A name absent from the list is an error. -/
def sccAMoreRestrictiveThanB (list : List String) (a b : String) : Except RErr Bool :=
  match list.findIdx? (fun s => s == a), list.findIdx? (fun s => s == b) with
  | some ia, some ib => Except.ok (decide (ia ≤ ib))
  | _, _ => Except.error RErr.sccMissingFromList

/-- Modelled from the spec: `common.VerifySCCExists` is defined outside the
provided sources; it checks that the named SCC exists on the cluster.  We
identify the cluster's SCCs with the members of the priority list. -/
def verifySCCExists (list : List String) (scc : String) : Bool :=
  list.contains scc

/-- `ensureSCCRoleInNamespace` (rbac.go lines 798-838): writes the
`pipelines-scc-role` role granting `use` of `scc`, owned by `r.ownerRef`;
a create when missing, an unconditional `Update` when present. -/
def ensureSCCRoleInNamespace (cfg : RConfig) (scc : String) (obj : NsObjects) :
    Except RErr Unit × NsObjects × Nat :=
  let newRole : Role := { ownerRefs := [cfg.ownerRef], sccName := scc }
  match obj.sccRole with
  | none => (Except.ok (), { obj with sccRole := some newRole }, 0)
  | some _ => (Except.ok (), { obj with sccRole := some newRole }, 1)

/-- `handleSCCInNamespace` (rbac.go lines 362-432): with no SCC annotation a
leftover `pipelines-scc-role` is deleted; with an annotation the named SCC
must exist (otherwise a warning event is created and the namespace fails),
the annotation SCC must be at least as restrictive as `maxAllowed` when a
ceiling is set (otherwise the namespace fails), and then the per-namespace
role is ensured. -/
def handleSCCInNamespace (cfg : RConfig) (nsName nsSCC : String) (obj : NsObjects) :
    Except RErr Unit × NsObjects × Nat :=
  if nsSCC = "" then
    match obj.sccRole with
    | some _ => (Except.ok (), { obj with sccRole := none }, 0)
    | none => (Except.ok (), obj, 0)
  else
    if !(verifySCCExists cfg.sccList nsSCC) then
      (Except.error (RErr.sccNotFound nsSCC), obj, 0)
    else if cfg.sccMaxAllowed ≠ "" then
      match sccAMoreRestrictiveThanB cfg.sccList nsSCC cfg.sccMaxAllowed with
      | Except.error e => (Except.error e, obj, 0)
      | Except.ok false => (Except.error (RErr.nsPolicyViolation nsName nsSCC), obj, 0)
      | Except.ok true => ensureSCCRoleInNamespace cfg nsSCC obj
    else ensureSCCRoleInNamespace cfg nsSCC obj

/-- `getSCCRoleInNamespace` (rbac.go lines 342-360): a namespace requesting
an SCC binds to the per-namespace Role, otherwise to the shared
ClusterRole. -/
def getSCCRoleInNamespace (nsSCC : String) : RoleRef :=
  if nsSCC ≠ "" then ⟨"rbac.authorization.k8s.io", "Role", pipelinesSCCRole⟩
  else ⟨"rbac.authorization.k8s.io", "ClusterRole", pipelinesSCCClusterRole⟩

/-- The create of `createSCCRoleBinding` (rbac.go lines 930-950). -/
def createSCCRoleBinding (cfg : RConfig) (saName saNs : String) (roleRef : RoleRef) :
    RoleBinding :=
  ⟨roleRef, [⟨"ServiceAccount", saName, saNs⟩], [cfg.ownerRef]⟩

/-- `ensurePipelinesSCCRoleBinding` (rbac.go lines 882-928): verifies the
referenced role exists (per kind), creates the binding when missing, deletes
and recreates it when bound to a different role kind or name, and otherwise
defers to `updateRoleBinding`. -/
def ensurePipelinesSCCRoleBinding (cfg : RConfig) (sccClusterRoleExists : Bool)
    (saName saNs : String) (roleRef : RoleRef) (obj : NsObjects) :
    Except RErr Unit × NsObjects × Nat :=
  let ensureRB : Except RErr Unit × NsObjects × Nat :=
    match obj.sccRB with
    | none => (Except.ok (), { obj with sccRB := some (createSCCRoleBinding cfg saName saNs roleRef) }, 0)
    | some rb =>
      if rb.roleRef.kind ≠ roleRef.kind ∨ rb.roleRef.name ≠ roleRef.name then
        (Except.ok (), { obj with sccRB := some (createSCCRoleBinding cfg saName saNs roleRef) }, 0)
      else
        let p := updateRoleBinding cfg.ownerRef rb saName saNs roleRef
        (Except.ok (), { obj with sccRB := some p.1 }, p.2)
  if roleRef.kind = "Role" then
    match obj.sccRole with
    | none => (Except.error RErr.roleNotFound, obj, 0)
    | some _ => ensureRB
  else if roleRef.kind = "ClusterRole" then
    if sccClusterRoleExists then ensureRB
    else (Except.error RErr.clusterRoleNotFound, obj, 0)
  else (Except.error (RErr.badRoleKind roleRef.kind), obj, 0)

/-- `isLegacyRBACEnabled` (rbac.go lines 1074-1081): the first
`legacyPipelineRbac` parameter decides; absent means enabled. -/
def isLegacyRBACEnabled (params : List Param) : Bool :=
  match params.find? (fun p => p.name == legacyPipelineRbacParamName) with
  | some p => p.value != "false"
  | none => true

/-- The create of `createRoleBinding` (rbac.go lines 1121-1148). -/
def createLegacyRoleBinding (cfg : RConfig) (saName saNs : String) : RoleBinding :=
  ⟨⟨"rbac.authorization.k8s.io", "ClusterRole", "edit"⟩,
    [⟨"ServiceAccount", saName, saNs⟩], [cfg.ownerRef]⟩

/-- `ensureRoleBindings` (rbac.go lines 1083-1119): when the legacy toggle is
off an existing `openshift-pipelines-edit` binding is deleted (or nothing
happens); when on, an existing binding goes through `updateRoleBinding` and
a missing one is created after checking the `edit` cluster role exists. -/
def ensureRoleBindings (cfg : RConfig) (editClusterRoleExists : Bool)
    (saName saNs : String) (obj : NsObjects) : Except RErr Unit × NsObjects × Nat :=
  let legacyEnabled := isLegacyRBACEnabled cfg.params
  match obj.editRB with
  | some rb =>
    if !legacyEnabled then (Except.ok (), { obj with editRB := none }, 0)
    else
      let p := updateRoleBinding cfg.ownerRef rb saName saNs
        ⟨"rbac.authorization.k8s.io", "ClusterRole", "edit"⟩
      (Except.ok (), { obj with editRB := some p.1 }, p.2)
  | none =>
    if !legacyEnabled then (Except.ok (), obj, 0)
    else if editClusterRoleExists then
      (Except.ok (), { obj with editRB := some (createLegacyRoleBinding cfg saName saNs) }, 0)
    else (Except.error RErr.clusterRoleNotFound, obj, 0)

/-- `processRBAC` (rbac.go lines 435-471): ensure the service account,
handle the SCC request, ensure the SCC role binding, ensure the legacy
binding; the first failure aborts this namespace.  Returns the service
account on success, the namespace objects after all committed mutations,
and the total number of `Update` calls issued. -/
def processRBAC (cfg : RConfig) (sccClusterRoleExists editClusterRoleExists : Bool)
    (meta : NsMeta) (obj : NsObjects) : Except RErr ServiceAccount × NsObjects × Nat :=
  let p0 := ensureSA cfg.tcOwnerRef meta.name obj.sa
  let sa := p0.1
  let obj1 := { obj with sa := some sa }
  match handleSCCInNamespace cfg meta.name meta.ann obj1 with
  | (Except.error e, obj2, u2) => (Except.error e, obj2, p0.2 + u2)
  | (Except.ok _, obj2, u2) =>
    let roleRef := getSCCRoleInNamespace meta.ann
    match ensurePipelinesSCCRoleBinding cfg sccClusterRoleExists sa.name sa.ns roleRef obj2 with
    | (Except.error e, obj3, u3) => (Except.error e, obj3, p0.2 + u2 + u3)
    | (Except.ok _, obj3, u3) =>
      match ensureRoleBindings cfg editClusterRoleExists sa.name sa.ns obj3 with
      | (Except.error e, obj4, u4) => (Except.error e, obj4, p0.2 + u2 + u3 + u4)
      | (Except.ok _, obj4, u4) => (Except.ok sa, obj4, p0.2 + u2 + u3 + u4)

/-- The namespace exclusion regex `^(openshift|kube)-` (rbac.go lines 85-86
and the comment at line 288): a name is ignored when it starts with
`openshift-` or `kube-`. -/
def nsRegexMatch (name : String) : Bool :=
  "openshift-".isPrefixOf name || "kube-".isPrefixOf name

/-- The RBAC-needed predicate of `getNamespacesToBeReconciled` (rbac.go
lines 300-325): a namespace needs RBAC work when it carries the SCC
annotation, or its version label differs from the target, or the label
matches but the `pipelines-scc-rolebinding` is missing or not bound to a
ClusterRole. -/
def namespaceNeedsRBAC (version ann label : String) (sccRB : Option RoleBinding) : Bool :=
  (ann != "") ||
    (if label != version then true
     else
       match sccRB with
       | none => true
       | some b => b.roleRef.kind != "ClusterRole")

/-- `getNamespacesToBeReconciled` (rbac.go lines 273-340): filters out
platform-reserved and terminating namespaces, then classifies the rest into
the RBAC work list and the CA-bundle work list. -/
def getNamespacesToBeReconciled (cfg : RConfig) (nss : List NsEntry) :
    List NsEntry × List NsEntry :=
  let eligible := nss.filter (fun e => !(nsRegexMatch e.meta.name) && !e.meta.deleting)
  (eligible.filter (fun e =>
      namespaceNeedsRBAC cfg.version e.meta.ann e.meta.rbacLabel e.obj.sccRB),
   eligible.filter (fun e => e.meta.caLabel != cfg.version))

/-- `cleanUp` (rbac.go lines 110-131): lists the namespaces whose
`rbac-version` label equals `r.version` (the current target version) and
removes that label from each, issuing one namespace `Update` per match.
The cleared label is modelled as the empty string, matching Go map-lookup
semantics for an absent key. -/
def cleanUp (version : String) (nss : List NsEntry) : List NsEntry × Nat :=
  (nss.map (fun e =>
      if e.meta.rbacLabel == version then { e with meta := { e.meta with rbacLabel := "" } }
      else e),
   (nss.filter (fun e => e.meta.rbacLabel == version)).length)

/-- `EnsureRBACInstallerSet` (rbac.go lines 133-161): when the installer set
for the current version exists it is returned and nothing else happens; when
it is missing, `cleanUp` clears the current-version labels, a new installer
set is created, and the non-terminal `RECONCILE_AGAIN_ERR` signal is
returned. -/
def EnsureRBACInstallerSet (gs : GlobalState) (version : String) :
    Except RErr Unit × GlobalState × Nat :=
  if gs.isetExists then (Except.ok (), gs, 0)
  else
    let p := cleanUp version gs.nss
    (Except.error RErr.reconcileAgain, { gs with nss := p.1, isetExists := true }, p.2)

/-- `ensurePipelinesSCClusterRole` (rbac.go lines 843-880): writes the
shared cluster role granting `use` of the default SCC; a create when
missing, an unconditional `Update` when present. -/
def ensurePipelinesSCClusterRole (cfg : RConfig) (gs : GlobalState) : GlobalState × Nat :=
  let cr : Role := { ownerRefs := [cfg.ownerRef], sccName := cfg.sccDefault }
  match gs.sccClusterRole with
  | none => ({ gs with sccClusterRole := some cr }, 0)
  | some _ => ({ gs with sccClusterRole := some cr }, 1)

/-- `ensurePreRequisites` (rbac.go lines 216-271): ensure the installer set,
check the default SCC is set and exists, and when a `maxAllowed` ceiling is
set check it exists and that the default SCC is at least as restrictive as
it (otherwise the pass fails with the policy-violation error of line 254);
finally the shared SCC cluster role is ensured unconditionally. -/
def ensurePreRequisites (cfg : RConfig) (gs : GlobalState) :
    Except RErr Unit × GlobalState × Nat :=
  match EnsureRBACInstallerSet gs cfg.version with
  | (Except.error e, gs1, u1) => (Except.error e, gs1, u1)
  | (Except.ok _, gs1, u1) =>
    if cfg.sccDefault = "" then (Except.error RErr.emptyDefaultSCC, gs1, u1)
    else if !(verifySCCExists cfg.sccList cfg.sccDefault) then
      (Except.error (RErr.sccNotFound cfg.sccDefault), gs1, u1)
    else if cfg.sccMaxAllowed ≠ "" then
      if !(verifySCCExists cfg.sccList cfg.sccMaxAllowed) then
        (Except.error (RErr.sccNotFound cfg.sccMaxAllowed), gs1, u1)
      else
        match sccAMoreRestrictiveThanB cfg.sccList cfg.sccDefault cfg.sccMaxAllowed with
        | Except.error e => (Except.error e, gs1, u1)
        | Except.ok false => (Except.error RErr.policyViolation, gs1, u1)
        | Except.ok true =>
          let p := ensurePipelinesSCClusterRole cfg gs1
          (Except.ok (), p.1, u1 + p.2)
    else
      let p := ensurePipelinesSCClusterRole cfg gs1
      (Except.ok (), p.1, u1 + p.2)

/-- `removeAndUpdateNSFromCI` (rbac.go lines 1150-1197): when the
clusterinterceptors binding exists, builds the map of namespaces currently
labelled with the target version (from the informer caches) and runs the
pruning loop over the subject list; an `Update` is issued only when the loop
removed something. -/
def removeAndUpdateNSFromCI (version : String) (nss : List NsEntry)
    (ci : Option RoleBinding) : Option RoleBinding × Nat :=
  match ci with
  | none => (none, 0)
  | some rb =>
    let nsMap := ((nss.filter (fun e => e.meta.rbacLabel == version)).map
      (fun e => e.meta.name)).dedup
    let p := pruneLoop nsMap rb.subjects 0 false
    (some { rb with subjects := p.1 }, if p.2 then 1 else 0)

/-- `bulkUpdateClusterRoleBinding` (rbac.go lines 1252-1287): merge the new
subjects in when the subject sets differ, repair the owner references, and
issue `Update` calls with the same two-condition structure as
`updateRoleBinding`. -/
def bulkUpdateClusterRoleBinding (own : OwnerReference) (rb : RoleBinding)
    (subjectlist : List Subject) : RoleBinding × Nat :=
  let hs := CompareSubjects rb.subjects subjectlist
  let subjects := if hs then rb.subjects else mergeSubjects rb.subjects subjectlist
  let hor := hasOwnerRefernce rb.ownerRefs own
  let ors := updateOwnerRefs own rb.ownerRefs
  let rb' : RoleBinding := { rb with subjects := subjects, ownerRefs := ors }
  let u1 := if hor then 0 else 1
  if hs && !ors.isEmpty then (rb', u1) else (rb', u1 + 1)

/-- `handleClusterRoleBinding` (rbac.go lines 1203-1249): ensure the
clusterinterceptors cluster role exists, build the subject list from the
successfully reconciled namespaces, and update (or create) the
clusterinterceptors binding. -/
def handleClusterRoleBinding (cfg : RConfig) (gs : GlobalState)
    (namespacesToUpdate : List ServiceAccount) : GlobalState × Nat :=
  let gs1 := if gs.ciClusterRoleExists then gs else { gs with ciClusterRoleExists := true }
  let subjects : List Subject :=
    namespacesToUpdate.map (fun sa => ⟨"ServiceAccount", sa.name, sa.ns⟩)
  match gs1.ciBinding with
  | some crb =>
    let p := bulkUpdateClusterRoleBinding cfg.ownerRef crb subjects
    ({ gs1 with ciBinding := some p.1 }, p.2)
  | none =>
    let crb : RoleBinding :=
      ⟨⟨"rbac.authorization.k8s.io", "ClusterRole", clusterInterceptors⟩,
        subjects, [cfg.ownerRef]⟩
    ({ gs1 with ciBinding := some crb }, 0)

/-- Did `processRBAC` succeed for this namespace entry? -/
def rbacOk (cfg : RConfig) (sccCR editCR : Bool) (e : NsEntry) : Bool :=
  match (processRBAC cfg sccCR editCR e.meta e.obj).1 with
  | Except.ok _ => true
  | Except.error _ => false

/-- The per-namespace loop of `createResources` (rbac.go lines 566-576):
process every selected namespace in order; a failure is logged and the loop
continues.  Returns the successful entries (with their updated objects and
service accounts), the failed entries (with their committed partial
mutations), and the `Update` total. -/
def rbacLoop (cfg : RConfig) (sccCR editCR : Bool) (entries : List NsEntry) :
    List (NsEntry × ServiceAccount) × List NsEntry × Nat :=
  match entries with
  | [] => ([], [], 0)
  | e :: rest =>
    let tail := rbacLoop cfg sccCR editCR rest
    match processRBAC cfg sccCR editCR e.meta e.obj with
    | (Except.ok sa, obj', uu) => (({ e with obj := obj' }, sa) :: tail.1, tail.2.1, uu + tail.2.2)
    | (Except.error _, obj', uu) => (tail.1, { e with obj := obj' } :: tail.2.1, uu + tail.2.2)

/-- Replace, by namespace name, the entries of `nss` that occur (updated) in
`updated`.  This is how per-namespace API writes and label patches are folded
back into the cluster state. -/
def setNsEntries (nss updated : List NsEntry) : List NsEntry :=
  nss.map (fun o =>
    match updated.find? (fun e => e.meta.name == o.meta.name) with
    | some e => e
    | none => o)

/-- The RBAC half of `createResources` (rbac.go lines 554-595): prune the
clusterinterceptors binding, run the per-namespace loop, and when at least
one namespace succeeded update the cluster role binding in bulk and stamp
the version label on exactly the successful namespaces.  Returns the new
global state, the `Update` total, the processed namespace names, and the
label-stamped namespace names. -/
def rbacPhase (cfg : RConfig) (gs : GlobalState) (rbacNs : List NsEntry) :
    GlobalState × Nat × List String × List String :=
  let p := removeAndUpdateNSFromCI cfg.version gs.nss gs.ciBinding
  let gsA := { gs with ciBinding := p.1 }
  let lp := rbacLoop cfg gsA.sccClusterRole.isSome gsA.editClusterRoleExists rbacNs
  if lp.1.isEmpty then
    ({ gsA with nss := setNsEntries gsA.nss lp.2.1 }, p.2 + lp.2.2,
      rbacNs.map (fun e => e.meta.name), [])
  else
    let hb := handleClusterRoleBinding cfg gsA (lp.1.map (fun q => q.2))
    let patched := lp.1.map (fun q =>
      { q.1 with meta := { q.1.meta with rbacLabel := cfg.version } })
    ({ hb.1 with nss := setNsEntries hb.1.nss (patched ++ lp.2.1) },
      p.2 + lp.2.2 + hb.2,
      rbacNs.map (fun e => e.meta.name),
      patched.map (fun e => e.meta.name))

/-- `ensureCABundles` (rbac.go lines 654-705): each of the two config maps
is created when missing (no `Update`), and when present its owner references
are stripped with an unconditional `Update`. -/
def ensureCABundles (obj : NsObjects) : NsObjects × Nat :=
  let u1 := if obj.trustedCM then 1 else 0
  let u2 := if obj.serviceCM then 1 else 0
  ({ obj with trustedCM := true, serviceCM := true }, u1 + u2)

/-- CA-bundle work applied to one selected namespace entry (rbac.go lines
604-614): ensure the config maps and stamp the trust-bundle label. -/
def applyCA (version : String) (e : NsEntry) : NsEntry :=
  { e with obj := (ensureCABundles e.obj).1, meta := { e.meta with caLabel := version } }

/-- The CA half of `createResources` (rbac.go lines 598-616), applied to the
cluster state by namespace name. -/
def caPhase (version : String) (caNames : List String) (nss : List NsEntry) :
    List NsEntry × Nat :=
  (nss.map (fun e => if caNames.contains e.meta.name then applyCA version e else e),
   (nss.filter (fun e => caNames.contains e.meta.name)).foldl
     (fun acc e => acc + (ensureCABundles e.obj).2) 0)

/-- The outcome of one `createResources` pass: the overall result, the final
cluster state, the number of `Update` calls, the namespaces attempted by the
RBAC loop, and the namespaces whose `rbac-version` label was stamped. -/
structure PassOut where
  res : Except RErr Unit
  gs : GlobalState
  updates : Nat
  processed : List String
  patched : List String
deriving Repr

/-- `createResources` (rbac.go lines 507-619): read the two feature flags,
return early when both are off, run `ensurePreRequisites` (RBAC enabled
only) and abort the pass on its error, select the namespaces needing work,
return early when none do, then run the RBAC phase and the CA phase. -/
def createResources (cfg : RConfig) (gs : GlobalState) : PassOut :=
  let createCABundles :=
    !(cfg.params.any (fun p => p.name == trustedCABundleParamName && p.value == "false"))
  let createRBACResource :=
    !(cfg.params.any (fun p => p.name == rbacParamName && p.value == "false"))
  if !createCABundles && !createRBACResource then ⟨Except.ok (), gs, 0, [], []⟩
  else
    match (if createRBACResource then ensurePreRequisites cfg gs
           else (Except.ok (), gs, 0)) with
    | (Except.error e, gs1, u1) => ⟨Except.error e, gs1, u1, [], []⟩
    | (Except.ok _, gs1, u1) =>
      let sel := getNamespacesToBeReconciled cfg gs1.nss
      if sel.1.isEmpty && sel.2.isEmpty then ⟨Except.ok (), gs1, u1, [], []⟩
      else
        let rp :=
          if createRBACResource && !sel.1.isEmpty then rbacPhase cfg gs1 sel.1
          else (gs1, 0, [], [])
        let gs2 := rp.1
        let cp :=
          if createCABundles && !sel.2.isEmpty then
            caPhase cfg.version (sel.2.map (fun e => e.meta.name)) gs2.nss
          else (gs2.nss, 0)
        ⟨Except.ok (), { gs2 with nss := cp.1 }, u1 + rp.2.1 + cp.2, rp.2.2.1, rp.2.2.2⟩

/-! ### Helper lemmas -/

theorem removeIndex_cons_succ (a : Subject) (t : List Subject) (j : Nat) :
    removeIndex (a :: t) (j + 1) = a :: removeIndex t j := by
  simp [removeIndex]

theorem filter_removeIndex (p : Subject → Bool) :
    ∀ (l : List Subject) (i : Nat) (h : i < l.length), p (l.get ⟨i, h⟩) = false →
      (removeIndex l i).filter p = l.filter p := by
  intro l
  induction l with
  | nil => intro i h; simp at h
  | cons a t iht =>
    intro i h hp
    cases i with
    | zero =>
      simp only [List.get] at hp
      simp [removeIndex, List.filter_cons, hp]
    | succ j =>
      have hj : j < t.length := by simpa using h
      simp only [List.get] at hp
      rw [removeIndex_cons_succ]
      simp only [List.filter_cons]
      rw [iht j hj hp]

theorem removeIndex_sublist :
    ∀ (l : List Subject) (i : Nat), (removeIndex l i).Sublist l := by
  intro l
  induction l with
  | nil => intro i; simp [removeIndex]
  | cons a t iht =>
    intro i
    cases i with
    | zero =>
      simp only [removeIndex, List.take_zero, List.drop_succ_cons, List.drop_zero,
        List.nil_append]
      exact List.sublist_cons_self a t
    | succ j =>
      rw [removeIndex_cons_succ]
      exact (iht j).cons₂ a

theorem pruneLoop_const_of_len_eq (nsMap : List String) (subs : List Subject) (i : Nat)
    (u : Bool) : nsMap.length = subs.length → pruneLoop nsMap subs i u = (subs, u) := by
  induction subs, i, u using pruneLoop.induct nsMap with
  | case1 subs i u hlt hne hcont ih => intro h; omega
  | case2 subs i u hlt hne hcont ih => intro h; omega
  | case3 subs i u hlt hne ih =>
    intro h
    rw [pruneLoop]
    simp only [hlt, dif_pos]
    rw [if_neg hne]
    exact ih h
  | case4 subs i u hlt =>
    intro h; rw [pruneLoop]; simp [hlt]

theorem pruneLoop_filter (nsMap : List String) (subs : List Subject) (i : Nat) (u : Bool) :
    ((pruneLoop nsMap subs i u).1).filter (fun s => nsMap.contains s.ns) =
      subs.filter (fun s => nsMap.contains s.ns) := by
  induction subs, i, u using pruneLoop.induct nsMap with
  | case1 subs i u hlt hne hcont ih =>
    rw [pruneLoop]
    simp only [hlt, dif_pos]
    rw [if_pos hne, if_pos hcont]
    exact ih
  | case2 subs i u hlt hne hcont ih =>
    rw [pruneLoop]
    simp only [hlt, dif_pos]
    rw [if_pos hne, if_neg hcont]
    rw [ih]
    exact filter_removeIndex _ subs i hlt (by simpa using hcont)
  | case3 subs i u hlt hne ih =>
    rw [pruneLoop]
    simp only [hlt, dif_pos]
    rw [if_neg hne]
    exact ih
  | case4 subs i u hlt =>
    rw [pruneLoop]
    simp [hlt]

theorem pruneLoop_sublist (nsMap : List String) (subs : List Subject) (i : Nat) (u : Bool) :
    (pruneLoop nsMap subs i u).1.Sublist subs := by
  induction subs, i, u using pruneLoop.induct nsMap with
  | case1 subs i u hlt hne hcont ih =>
    rw [pruneLoop]; simp only [hlt, dif_pos]; rw [if_pos hne, if_pos hcont]; exact ih
  | case2 subs i u hlt hne hcont ih =>
    rw [pruneLoop]; simp only [hlt, dif_pos]; rw [if_pos hne, if_neg hcont]
    exact ih.trans (removeIndex_sublist subs i)
  | case3 subs i u hlt hne ih =>
    rw [pruneLoop]; simp only [hlt, dif_pos]; rw [if_neg hne]; exact ih
  | case4 subs i u hlt =>
    rw [pruneLoop]; simp [hlt]

theorem findIdx?_split (p : OwnerReference → Bool) (m : OwnerReference)
    (post : List OwnerReference) (hm : p m = true) :
    ∀ (pre : List OwnerReference) (i : Nat), (∀ r ∈ pre, p r = false) →
      List.findIdx? p (pre ++ m :: post) i = some (i + pre.length) := by
  intro pre
  induction pre with
  | nil => intro i _; simp [List.findIdx?_cons, hm]
  | cons a t ih =>
    intro i hall
    have ha : p a = false := hall a (List.mem_cons_self a t)
    have ht : ∀ r ∈ t, p r = false := fun r hr => hall r (List.mem_cons_of_mem a hr)
    simp only [List.cons_append, List.findIdx?_cons, ha, if_false]
    rw [ih (i + 1) ht]
    simp
    omega

theorem updateOwnerRefs_ne_nil (own : OwnerReference) (refs : List OwnerReference) :
    updateOwnerRefs own refs ≠ [] := by
  unfold updateOwnerRefs
  split
  · simp
  · unfold findFirstMismatch
    cases h : refs.findIdx? (fun ref => !(refMatches own ref)) with
    | none =>
      simp only
      intro he
      simp [he] at *
    | some i => simp [removeAndUpdate]

/-! ### Claim C10 -/

/-- Claim C10: `mergeSubjects` returns the first list unchanged as a prefix
and then appends, in their original order, exactly those subjects of the
second list whose (Kind, Name, Namespace) key does not occur in the first
list; when the first list is key-duplicate-free and the second list's keys
are pairwise distinct, the result is key-duplicate-free and its key set is
the union of the two input key sets. -/
theorem c10_merge_subjects_spec (subs x : List Subject) :
    mergeSubjects subs x =
      subs ++ x.filter (fun s => !((subs.map subjectKey).contains (subjectKey s))) ∧
    ((subs.map subjectKey).Nodup → (x.map subjectKey).Nodup →
      ((mergeSubjects subs x).map subjectKey).Nodup) ∧
    (∀ k, k ∈ (mergeSubjects subs x).map subjectKey ↔
      k ∈ subs.map subjectKey ∨ k ∈ x.map subjectKey) := by
  refine ⟨rfl, ?_, ?_⟩
  · intro h1 h2
    unfold mergeSubjects
    simp only [List.map_append]
    rw [List.nodup_append]
    refine ⟨h1, h2.sublist ((List.filter_sublist x).map subjectKey), ?_⟩
    intro k hk1 hk2
    obtain ⟨s, hs, rfl⟩ := List.mem_map.mp hk2
    obtain ⟨_, hp⟩ := List.mem_filter.mp hs
    simp only [Bool.not_eq_true'] at hp
    have : subjectKey s ∉ subs.map subjectKey := by simpa using hp
    exact this hk1
  · intro k
    constructor
    · intro hk
      unfold mergeSubjects at hk
      simp only [List.map_append, List.mem_append] at hk
      rcases hk with h | h
      · exact Or.inl h
      · right
        obtain ⟨s, hs, rfl⟩ := List.mem_map.mp h
        exact List.mem_map.mpr ⟨s, (List.mem_filter.mp hs).1, rfl⟩
    · intro hk
      unfold mergeSubjects
      simp only [List.map_append, List.mem_append]
      rcases hk with h | h
      · exact Or.inl h
      · by_cases hc : k ∈ subs.map subjectKey
        · exact Or.inl hc
        · right
          obtain ⟨s, hs, rfl⟩ := List.mem_map.mp h
          refine List.mem_map.mpr ⟨s, List.mem_filter.mpr ⟨hs, ?_⟩, rfl⟩
          simpa using hc

/-- Witness for C10 at a concrete input with the hypotheses discharged. -/
theorem c10_witness :
    ((mergeSubjects [⟨"ServiceAccount", "pipeline", "nsa"⟩]
        [⟨"ServiceAccount", "pipeline", "nsa"⟩,
          ⟨"ServiceAccount", "pipeline", "nsb"⟩]).map subjectKey).Nodup :=
  (c10_merge_subjects_spec _ _).2.1 (by decide) (by decide)

/-! ### Claim C9 -/

/-- Claim C9: `updateOwnerRefs` always returns a non-empty list that
contains a reference matching the reconciler's owner reference on
APIVersion, Kind and Name; an empty input yields exactly the singleton of
the reconciler's reference; and when a mismatching reference exists, only
the first mismatching one is removed before the reconciler's reference is
appended, so any later mismatching reference is retained. -/
theorem c9_update_owner_refs_spec (own : OwnerReference) (refs : List OwnerReference) :
    updateOwnerRefs own refs ≠ [] ∧
    (∃ r ∈ updateOwnerRefs own refs, refMatches own r = true) ∧
    (refs = [] → updateOwnerRefs own refs = [own]) ∧
    (∀ pre m post, refs = pre ++ m :: post → (∀ r ∈ pre, refMatches own r = true) →
      refMatches own m = false → updateOwnerRefs own refs = pre ++ post ++ [own]) := by
  refine ⟨updateOwnerRefs_ne_nil own refs, ?_, ?_, ?_⟩
  · unfold updateOwnerRefs
    split
    · exact ⟨own, by simp, by simp [refMatches]⟩
    · rename_i hlen
      unfold findFirstMismatch
      cases h : refs.findIdx? (fun ref => !(refMatches own ref)) with
      | none =>
        have hall := List.findIdx?_eq_none_iff.mp h
        have hne : refs ≠ [] := by
          intro he; exact hlen (by simp [he])
        obtain ⟨a, ha⟩ := List.exists_mem_of_ne_nil refs hne
        exact ⟨a, ha, by simpa using hall a ha⟩
      | some i =>
        exact ⟨own, by simp [removeAndUpdate], by simp [refMatches]⟩
  · intro h
    subst h
    simp [updateOwnerRefs]
  · intro pre m post href hpre hm
    subst href
    unfold updateOwnerRefs
    rw [if_neg (by simp)]
    unfold findFirstMismatch
    rw [findIdx?_split _ m post (by simp [hm]) pre 0 (fun r hr => by simp [hpre r hr])]
    simp only [Nat.zero_add]
    unfold removeAndUpdate
    have ht : (pre ++ m :: post).take pre.length = pre := List.take_left pre (m :: post)
    have hd : (pre ++ m :: post).drop (pre.length + 1) = post := by
      rw [List.drop_append 1]
      rfl
    rw [ht, hd]

/-- Witness for C9: the theorem applied at a two-element input whose members
both mismatch; only the first is removed, the second survives. -/
theorem c9_witness :
    updateOwnerRefs ⟨"v1", "TektonInstallerSet", "owner"⟩
      [⟨"v1", "Foreign", "f1"⟩, ⟨"v1", "Foreign", "f2"⟩] =
      [⟨"v1", "Foreign", "f2"⟩, ⟨"v1", "TektonInstallerSet", "owner"⟩] := by
  have h := (c9_update_owner_refs_spec ⟨"v1", "TektonInstallerSet", "owner"⟩
      [⟨"v1", "Foreign", "f1"⟩, ⟨"v1", "Foreign", "f2"⟩]).2.2.2
      [] ⟨"v1", "Foreign", "f1"⟩ [⟨"v1", "Foreign", "f2"⟩] rfl (by simp) (by decide)
  simpa using h

/-! ### Claim C4 -/

theorem fixParamValue_valid (v : String) :
    fixParamValue v = "true" ∨ fixParamValue v = "false" := by
  unfold fixParamValue
  split
  · exact Or.inl rfl
  · rename_i h
    simp only [Bool.and_eq_true, bne_iff_ne, ne_eq, not_and_or, not_not] at h
    rcases h with h | h
    · exact Or.inr h
    · exact Or.inl h

theorem fixParam_name (q : Param) : (fixParam q).name = q.name := by
  unfold fixParam
  split <;> rfl

theorem setDefault_cases (params : List Param) :
    setDefault params =
      params.map fixParam ++
        (if params.any (fun p => p.name == rbacParamName) then []
          else [⟨rbacParamName, "true"⟩]) ++
        (if params.any (fun p => p.name == legacyPipelineRbacParamName) then []
          else [⟨legacyPipelineRbacParamName, "true"⟩]) ++
        (if params.any (fun p => p.name == trustedCABundleParamName) then []
          else [⟨trustedCABundleParamName,
            if params.any (fun p => p.name == rbacParamName) &&
                (lastParamValue params rbacParamName == some "false") then "false"
            else "true"⟩]) := by
  by_cases h1 : params.any (fun p => p.name == rbacParamName) = true
  · by_cases h2 : params.any (fun p => p.name == legacyPipelineRbacParamName) = true
    · by_cases h3 : params.any (fun p => p.name == trustedCABundleParamName) = true
      · simp [setDefault, h1, h2, h3]
      · simp [setDefault, h1, h2, h3]
    · by_cases h3 : params.any (fun p => p.name == trustedCABundleParamName) = true
      · simp [setDefault, h1, h2, h3]
      · simp [setDefault, h1, h2, h3]
  · by_cases h2 : params.any (fun p => p.name == legacyPipelineRbacParamName) = true
    · by_cases h3 : params.any (fun p => p.name == trustedCABundleParamName) = true
      · simp [setDefault, h1, h2, h3]
      · simp [setDefault, h1, h2, h3]
    · by_cases h3 : params.any (fun p => p.name == trustedCABundleParamName) = true
      · simp [setDefault, h1, h2, h3]
      · simp [setDefault, h1, h2, h3]

/-- Counterexample for C4: with `createRbacResource` configured to
`"false"` and `createCABundleConfigMaps` absent, `setDefault` appends
`createCABundleConfigMaps` with value `"false"`, not `"true"` as the claim
requires for an absent parameter. -/
theorem c4_ca_param_defaults_false :
    setDefault [⟨rbacParamName, "false"⟩] =
      [⟨rbacParamName, "false"⟩, ⟨legacyPipelineRbacParamName, "true"⟩,
        ⟨trustedCABundleParamName, "false"⟩] ∧
    Param.mk trustedCABundleParamName "true" ∉ setDefault [⟨rbacParamName, "false"⟩] := by
  constructor
  · rfl
  · decide

/-- Claim C4 (amended): after `setDefault`, each of the three toggle
parameters is present and carries value `"true"` or `"false"`; a present
malformed parameter is rewritten to `"true"`; an absent `createRbacResource`
or `legacyPipelineRbac` is appended with `"true"`; an absent
`createCABundleConfigMaps` is appended with `"true"` except when
`createRbacResource` is present with (last) configured value `"false"`, in
which case it is appended with `"false"`. -/
theorem c4_set_default_spec (params : List Param) :
    (∀ p ∈ setDefault params,
      (p.name = rbacParamName ∨ p.name = legacyPipelineRbacParamName ∨
        p.name = trustedCABundleParamName) → (p.value = "true" ∨ p.value = "false")) ∧
    (∃ p ∈ setDefault params, p.name = rbacParamName) ∧
    (∃ p ∈ setDefault params, p.name = legacyPipelineRbacParamName) ∧
    (∃ p ∈ setDefault params, p.name = trustedCABundleParamName) ∧
    (∀ p ∈ params,
      (p.name = rbacParamName ∨ p.name = legacyPipelineRbacParamName ∨
        p.name = trustedCABundleParamName) → p.value ≠ "true" → p.value ≠ "false" →
      Param.mk p.name "true" ∈ setDefault params) ∧
    ((∀ p ∈ params, p.name ≠ rbacParamName) →
      Param.mk rbacParamName "true" ∈ setDefault params) ∧
    ((∀ p ∈ params, p.name ≠ legacyPipelineRbacParamName) →
      Param.mk legacyPipelineRbacParamName "true" ∈ setDefault params) ∧
    ((∀ p ∈ params, p.name ≠ trustedCABundleParamName) →
      ((params.any (fun p => p.name == rbacParamName) = true ∧
          lastParamValue params rbacParamName = some "false") →
        Param.mk trustedCABundleParamName "false" ∈ setDefault params) ∧
      (¬ (params.any (fun p => p.name == rbacParamName) = true ∧
          lastParamValue params rbacParamName = some "false") →
        Param.mk trustedCABundleParamName "true" ∈ setDefault params)) := by
  have hdec := setDefault_cases params
  refine ⟨?_, ?_, ?_, ?_, ?_, ?_, ?_, ?_⟩
  · intro p hp hname
    rw [hdec] at hp
    simp only [List.mem_append] at hp
    rcases hp with ((hp | hp) | hp) | hp
    · obtain ⟨q, _, rfl⟩ := List.mem_map.mp hp
      rw [fixParam_name q] at hname
      have hcond : (q.name == rbacParamName || q.name == legacyPipelineRbacParamName ||
          q.name == trustedCABundleParamName) = true := by
        rcases hname with h | h | h <;> simp [h]
      have heq : fixParam q = ⟨q.name, fixParamValue q.value⟩ := by
        unfold fixParam
        rw [if_pos hcond]
      rw [heq]
      exact fixParamValue_valid q.value
    · split at hp
      · simp at hp
      · rw [List.mem_singleton] at hp
        subst hp
        exact Or.inl rfl
    · split at hp
      · simp at hp
      · rw [List.mem_singleton] at hp
        subst hp
        exact Or.inl rfl
    · split at hp
      · simp at hp
      · rw [List.mem_singleton] at hp
        subst hp
        split
        · exact Or.inr rfl
        · exact Or.inl rfl
  · by_cases hf : params.any (fun p => p.name == rbacParamName) = true
    · obtain ⟨q, hq, hqn⟩ := List.any_eq_true.mp hf
      refine ⟨fixParam q, ?_, ?_⟩
      · rw [hdec]
        simp only [List.mem_append]
        exact Or.inl (Or.inl (Or.inl (List.mem_map.mpr ⟨q, hq, rfl⟩)))
      · rw [fixParam_name]
        exact eq_of_beq hqn
    · refine ⟨⟨rbacParamName, "true"⟩, ?_, rfl⟩
      rw [hdec]
      simp [hf]
  · by_cases hf : params.any (fun p => p.name == legacyPipelineRbacParamName) = true
    · obtain ⟨q, hq, hqn⟩ := List.any_eq_true.mp hf
      refine ⟨fixParam q, ?_, ?_⟩
      · rw [hdec]
        simp only [List.mem_append]
        exact Or.inl (Or.inl (Or.inl (List.mem_map.mpr ⟨q, hq, rfl⟩)))
      · rw [fixParam_name]
        exact eq_of_beq hqn
    · refine ⟨⟨legacyPipelineRbacParamName, "true"⟩, ?_, rfl⟩
      rw [hdec]
      simp [hf]
  · by_cases hf : params.any (fun p => p.name == trustedCABundleParamName) = true
    · obtain ⟨q, hq, hqn⟩ := List.any_eq_true.mp hf
      refine ⟨fixParam q, ?_, ?_⟩
      · rw [hdec]
        simp only [List.mem_append]
        exact Or.inl (Or.inl (Or.inl (List.mem_map.mpr ⟨q, hq, rfl⟩)))
      · rw [fixParam_name]
        exact eq_of_beq hqn
    · by_cases hb : (params.any (fun p => p.name == rbacParamName) &&
          (lastParamValue params rbacParamName == some "false")) = true
      · refine ⟨⟨trustedCABundleParamName, "false"⟩, ?_, rfl⟩
        rw [hdec]
        simp [hf, hb]
      · refine ⟨⟨trustedCABundleParamName, "true"⟩, ?_, rfl⟩
        rw [hdec]
        simp [hf, hb]
  · intro p hp hname hv1 hv2
    have hcond : (p.name == rbacParamName || p.name == legacyPipelineRbacParamName ||
        p.name == trustedCABundleParamName) = true := by
      rcases hname with h | h | h <;> simp [h]
    have hfix : fixParam p = ⟨p.name, "true"⟩ := by
      unfold fixParam
      rw [if_pos hcond]
      unfold fixParamValue
      rw [if_pos (by simp [hv1, hv2])]
    rw [hdec]
    simp only [List.mem_append]
    exact Or.inl (Or.inl (Or.inl (List.mem_map.mpr ⟨p, hp, hfix⟩)))
  · intro hnone
    have hf : params.any (fun p => p.name == rbacParamName) = false := by
      rw [List.any_eq_false]
      intro q hq
      simpa using hnone q hq
    rw [hdec]
    simp [hf]
  · intro hnone
    have hf : params.any (fun p => p.name == legacyPipelineRbacParamName) = false := by
      rw [List.any_eq_false]
      intro q hq
      simpa using hnone q hq
    rw [hdec]
    simp [hf]
  · intro hnone
    have hf : params.any (fun p => p.name == trustedCABundleParamName) = false := by
      rw [List.any_eq_false]
      intro q hq
      simpa using hnone q hq
    constructor
    · intro hcase
      rw [hdec]
      have : (params.any (fun p => p.name == rbacParamName) &&
          (lastParamValue params rbacParamName == some "false")) = true := by
        simp [hcase.1, hcase.2]
      simp [hf, this]
    · intro hcase
      rw [hdec]
      have : (params.any (fun p => p.name == rbacParamName) &&
          (lastParamValue params rbacParamName == some "false")) = false := by
        by_cases ha : params.any (fun p => p.name == rbacParamName) = true
        · have hl : lastParamValue params rbacParamName ≠ some "false" :=
            fun hl => hcase ⟨ha, hl⟩
          simp [ha, hl]
        · simp [Bool.eq_false_iff.mpr ha]
      simp [hf, this]

/-- Witness for C4 at a concrete input: a malformed `createRbacResource`
value is rewritten to `"true"`. -/
theorem c4_witness :
    Param.mk rbacParamName "true" ∈ setDefault [⟨rbacParamName, "junk"⟩] :=
  (c4_set_default_spec [⟨rbacParamName, "junk"⟩]).2.2.2.2.1 ⟨rbacParamName, "junk"⟩
    (by simp) (Or.inl rfl) (by decide) (by decide)

/-! ### Claim C5 -/

/-- Counterexample for C5: after `ensureSA` succeeds on an existing service
account, its single owner reference is the TektonConfig reference, which is
not the installer-set reference `r.ownerRef` carried by the reconciler; the
claim that the owner reference points at the current bookkeeping object is
false. -/
theorem c5_owner_is_tekton_config :
    (ensureSA (tektonConfigOwnerRef "config") "demo"
        (some ⟨pipelineSA, "demo", [configOwnerRef "rhosp-rbac-v"]⟩)).1.ownerRefs =
      [tektonConfigOwnerRef "config"] ∧
    tektonConfigOwnerRef "config" ≠ configOwnerRef "rhosp-rbac-v" :=
  ⟨rfl, by decide⟩

/-- Claim C5 (amended): after `ensureSA` (or `createSA`) succeeds, the
service account's owner references consist of exactly one reference, and
that reference points at the parent TektonConfig (the reference built by
`tektonConfigOwnerRef`), not at the RBAC installer set; any pre-existing
owner reference is replaced wholesale, never accumulated. -/
theorem c5_single_owner_reference (tcRef : OwnerReference) (nsName : String)
    (st : Option ServiceAccount) :
    (ensureSA tcRef nsName st).1.ownerRefs = [tcRef] ∧
    (ensureSA tcRef nsName st).1.ownerRefs.length = 1 ∧
    (createSA tcRef nsName).1.ownerRefs = [tcRef] := by
  refine ⟨?_, ?_, rfl⟩ <;> cases st <;> simp [ensureSA, createSA]

/-! ### Claim C2 -/

/-- Claim C2 (amended): the role-binding path is idempotent — when the
subject and the owner reference are both already present,
`updateRoleBinding` issues zero `Update` calls — but `ensureSA` issues one
`Update` call whenever the service account already exists, even when it is
already correct, so a full pass over a selected namespace is not
update-free. -/
theorem c2_noop_conditions :
    (∀ (own : OwnerReference) (rb : RoleBinding) (saName saNs : String) (roleRef : RoleRef),
      hasSubject rb.subjects ⟨"ServiceAccount", saName, saNs⟩ = true →
      hasOwnerRefernce rb.ownerRefs own = true →
      (updateRoleBinding own rb saName saNs roleRef).2 = 0) ∧
    (∀ (tcRef : OwnerReference) (nsName : String) (sa : ServiceAccount),
      (ensureSA tcRef nsName (some sa)).2 = 1) := by
  constructor
  · intro own rb saName saNs roleRef hs hor
    have hne : updateOwnerRefs own rb.ownerRefs ≠ [] := updateOwnerRefs_ne_nil own rb.ownerRefs
    have hemp : (updateOwnerRefs own rb.ownerRefs).isEmpty = false := by
      cases h : updateOwnerRefs own rb.ownerRefs with
      | nil => exact absurd h hne
      | cons a t => rfl
    simp [updateRoleBinding, hs, hor, hemp]
  · intro tcRef nsName sa
    rfl

/-- Witness for C2 at a concrete already-correct role binding. -/
theorem c2_witness :
    (updateRoleBinding ⟨"v1", "TektonInstallerSet", "o"⟩
        ⟨⟨"rbac.authorization.k8s.io", "Role", pipelinesSCCRole⟩,
          [⟨"ServiceAccount", "pipeline", "demo"⟩], [⟨"v1", "TektonInstallerSet", "o"⟩]⟩
        "pipeline" "demo" ⟨"rbac.authorization.k8s.io", "Role", pipelinesSCCRole⟩).2 = 0 :=
  c2_noop_conditions.1 ⟨"v1", "TektonInstallerSet", "o"⟩ _ "pipeline" "demo" _
    (by decide) (by decide)

/-- Counterexample for C2: a namespace whose service account, SCC role, SCC
role binding, legacy binding and CA config maps are all already correct is
still selected on the next pass (its SCC annotation keeps
`namespaceNeedsRBAC` true), and `processRBAC` on it issues two `Update`
calls (one from `ensureSA`, one from `ensureSCCRoleInNamespace`) — not zero
as the claim requires. -/
theorem c2_second_pass_updates_correct_namespace :
    namespaceNeedsRBAC "v" "restricted" "v"
      (some ⟨⟨"rbac.authorization.k8s.io", "Role", pipelinesSCCRole⟩,
        [⟨"ServiceAccount", "pipeline", "demo"⟩], [⟨"v1", "TektonInstallerSet", "o"⟩]⟩) = true ∧
    (processRBAC
        ⟨"v", [], "restricted", "", ["restricted", "privileged"],
          ⟨"v1", "TektonInstallerSet", "o"⟩, ⟨"v1", "TektonConfig", "c"⟩⟩
        true true
        ⟨"demo", "restricted", "v", "v", false⟩
        ⟨some ⟨"pipeline", "demo", [⟨"v1", "TektonConfig", "c"⟩]⟩,
          some ⟨[⟨"v1", "TektonInstallerSet", "o"⟩], "restricted"⟩,
          some ⟨⟨"rbac.authorization.k8s.io", "Role", pipelinesSCCRole⟩,
            [⟨"ServiceAccount", "pipeline", "demo"⟩], [⟨"v1", "TektonInstallerSet", "o"⟩]⟩,
          some ⟨⟨"rbac.authorization.k8s.io", "ClusterRole", "edit"⟩,
            [⟨"ServiceAccount", "pipeline", "demo"⟩], [⟨"v1", "TektonInstallerSet", "o"⟩]⟩,
          true, true⟩).2.2 = 2 := by
  constructor
  · rfl
  · rfl

/-! ### Claim C1 -/

theorem pruneLoop_scenario (A B : String) (h : A ≠ B) :
    pruneLoop [A] [⟨"ServiceAccount", pipelineSA, A⟩, ⟨"ServiceAccount", pipelineSA, B⟩]
      0 false = ([⟨"ServiceAccount", pipelineSA, A⟩], true) := by
  have hBA : ¬ (B = A) := fun e => h e.symm
  simp [pruneLoop, removeIndex, hBA]

/-- Counterexample for C1: with one namespace at the target version and a
single stale bound subject, the labelled-namespace count equals the
subject-list length, so the pruning step removes nothing and issues no
update — the stale subject whose namespace is not in the labelled set
survives, contradicting the claim that every such subject is removed. -/
theorem c1_stale_subject_survives :
    removeAndUpdateNSFromCI "v"
      [⟨⟨"alpha", "", "v", "v", false⟩, ⟨none, none, none, none, false, false⟩⟩]
      (some ⟨⟨"rbac.authorization.k8s.io", "ClusterRole", clusterInterceptors⟩,
        [⟨"ServiceAccount", pipelineSA, "beta"⟩], []⟩) =
      (some ⟨⟨"rbac.authorization.k8s.io", "ClusterRole", clusterInterceptors⟩,
        [⟨"ServiceAccount", pipelineSA, "beta"⟩], []⟩, 0) := by
  simp [removeAndUpdateNSFromCI, pruneLoop, pipelineSA]

/-- Claim C1 (amended): in the concrete two-namespace scenario the pruning
step is exact — after namespaces A and B were reconciled and B dropped out
of the labelled set, one further pass removes exactly the B subject and
leaves the A subject untouched — and in general pruning is sound: every
subject it removes is stale (subjects whose namespace is in the labelled
set are preserved exactly, and the output is a sublist of the input).  The
converse direction of the original claim (every stale subject is removed)
does not hold. -/
theorem c1_prune_scenario_and_soundness :
    (∀ (version A B : String) (e : NsEntry) (ref : RoleRef) (owners : List OwnerReference),
      A ≠ B → e.meta.name = A → e.meta.rbacLabel = version →
      removeAndUpdateNSFromCI version [e]
        (some ⟨ref, [⟨"ServiceAccount", pipelineSA, A⟩, ⟨"ServiceAccount", pipelineSA, B⟩],
          owners⟩) =
        (some ⟨ref, [⟨"ServiceAccount", pipelineSA, A⟩], owners⟩, 1)) ∧
    (∀ (nsMap : List String) (subs : List Subject),
      ((pruneLoop nsMap subs 0 false).1).filter (fun s => nsMap.contains s.ns) =
        subs.filter (fun s => nsMap.contains s.ns)) ∧
    (∀ (nsMap : List String) (subs : List Subject),
      (pruneLoop nsMap subs 0 false).1.Sublist subs) := by
  refine ⟨?_, fun nsMap subs => pruneLoop_filter nsMap subs 0 false,
    fun nsMap subs => pruneLoop_sublist nsMap subs 0 false⟩
  intro version A B e ref owners hAB hname hlabel
  unfold removeAndUpdateNSFromCI
  have hl : (e.meta.rbacLabel == version) = true := by simp [hlabel]
  simp [hl, hname, pruneLoop_scenario A B hAB]

/-- Witness for C1 at concrete namespaces. -/
theorem c1_witness :
    removeAndUpdateNSFromCI "v"
      [⟨⟨"nsa", "", "v", "v", false⟩, ⟨none, none, none, none, false, false⟩⟩]
      (some ⟨⟨"rbac.authorization.k8s.io", "ClusterRole", clusterInterceptors⟩,
        [⟨"ServiceAccount", pipelineSA, "nsa"⟩, ⟨"ServiceAccount", pipelineSA, "nsb"⟩], []⟩) =
      (some ⟨⟨"rbac.authorization.k8s.io", "ClusterRole", clusterInterceptors⟩,
        [⟨"ServiceAccount", pipelineSA, "nsa"⟩], []⟩, 1) :=
  c1_prune_scenario_and_soundness.1 "v" "nsa" "nsb" _ _ _ (by decide) rfl rfl

/-! ### Claim C8 -/

/-- Claim C8: whenever the number of namespaces currently labelled with the
target version equals the length of the clusterinterceptors binding's
subject list, `removeAndUpdateNSFromCI` removes no subject and issues no
update, even if some bound subject is stale; and when a subject is removed
at index `i`, the element shifted into position `i` is skipped: pruning
`[nsb, nsc, nsa]` against the labelled set `{nsa}` removes only the `nsb`
subject, the stale `nsc` subject shifted into the removal position
survives. -/
theorem c8_prune_edge_cases :
    (∀ (version : String) (nss : List NsEntry) (rb : RoleBinding),
      (((nss.filter (fun e => e.meta.rbacLabel == version)).map
          (fun e => e.meta.name)).dedup).length = rb.subjects.length →
      removeAndUpdateNSFromCI version nss (some rb) = (some rb, 0)) ∧
    pruneLoop ["nsa"]
      [⟨"ServiceAccount", pipelineSA, "nsb"⟩, ⟨"ServiceAccount", pipelineSA, "nsc"⟩,
        ⟨"ServiceAccount", pipelineSA, "nsa"⟩] 0 false =
      ([⟨"ServiceAccount", pipelineSA, "nsc"⟩, ⟨"ServiceAccount", pipelineSA, "nsa"⟩],
        true) := by
  constructor
  · intro version nss rb h
    simp [removeAndUpdateNSFromCI, pruneLoop_const_of_len_eq _ _ 0 false h]
  · simp [pruneLoop, removeIndex, pipelineSA]

/-- Witness for C8: one labelled namespace, one (stale) bound subject; the
lengths agree, so nothing is pruned and no update is issued. -/
theorem c8_witness :
    removeAndUpdateNSFromCI "v"
      [⟨⟨"nsa", "", "v", "v", false⟩, ⟨none, none, none, none, false, false⟩⟩]
      (some ⟨⟨"rbac.authorization.k8s.io", "ClusterRole", clusterInterceptors⟩,
        [⟨"ServiceAccount", pipelineSA, "other"⟩], []⟩) =
      (some ⟨⟨"rbac.authorization.k8s.io", "ClusterRole", clusterInterceptors⟩,
        [⟨"ServiceAccount", pipelineSA, "other"⟩], []⟩, 0) :=
  c8_prune_edge_cases.1 "v" _ _ (by decide)

/-! ### Claim C3 -/

/-- Counterexample for C3: on the missing-bookkeeping-object path with
current version `v2`, a namespace carrying the previous version's label
`v1` is left untouched — `cleanUp` selects only namespaces labelled with
the current version, not the previous one as the claim states. -/
theorem c3_previous_version_label_not_cleared :
    (EnsureRBACInstallerSet
        ⟨false, none, false, false, none,
          [⟨⟨"demo", "", "v1", "v1", false⟩, ⟨none, none, none, none, false, false⟩⟩]⟩
        "v2").2.1.nss =
      [⟨⟨"demo", "", "v1", "v1", false⟩, ⟨none, none, none, none, false, false⟩⟩] ∧
    (EnsureRBACInstallerSet
        ⟨false, none, false, false, none,
          [⟨⟨"demo", "", "v1", "v1", false⟩, ⟨none, none, none, none, false, false⟩⟩]⟩
        "v2").1 = Except.error RErr.reconcileAgain :=
  ⟨rfl, rfl⟩

/-- Claim C3 (amended): when no bookkeeping object exists for the current
version, `EnsureRBACInstallerSet` clears the `rbac-version` label from
every namespace currently carrying the current target version's value (not
the previous version's), creates the new bookkeeping object, and returns
the non-terminal reconcile-again signal; when the object already exists,
nothing is cleared and the state is returned unchanged. -/
theorem c3_version_gate :
    (∀ (gs : GlobalState) (version : String), gs.isetExists = false →
      (EnsureRBACInstallerSet gs version).1 = Except.error RErr.reconcileAgain ∧
      (EnsureRBACInstallerSet gs version).2.1.isetExists = true ∧
      (EnsureRBACInstallerSet gs version).2.1.nss = (cleanUp version gs.nss).1 ∧
      (∀ e ∈ (EnsureRBACInstallerSet gs version).2.1.nss,
        version ≠ "" → e.meta.rbacLabel ≠ version) ∧
      (∀ e ∈ gs.nss, e.meta.rbacLabel ≠ version →
        e ∈ (EnsureRBACInstallerSet gs version).2.1.nss)) ∧
    (∀ (gs : GlobalState) (version : String), gs.isetExists = true →
      EnsureRBACInstallerSet gs version = (Except.ok (), gs, 0)) := by
  constructor
  · intro gs version h
    refine ⟨by simp [EnsureRBACInstallerSet, h], by simp [EnsureRBACInstallerSet, h],
      by simp [EnsureRBACInstallerSet, h], ?_, ?_⟩
    · intro e he hv
      simp only [EnsureRBACInstallerSet, h, Bool.false_eq_true, if_false, cleanUp] at he
      obtain ⟨q, _, rfl⟩ := List.mem_map.mp he
      split
      · intro hc
        exact hv hc.symm
      · rename_i hq
        intro hc
        exact hq (by simp [hc])
    · intro e he hne
      simp only [EnsureRBACInstallerSet, h, Bool.false_eq_true, if_false, cleanUp]
      refine List.mem_map.mpr ⟨e, he, ?_⟩
      rw [if_neg (by simp [hne])]
  · intro gs version h
    simp [EnsureRBACInstallerSet, h]

/-- Witness for C3: a namespace labelled with the current version is
cleared on the missing-object path. -/
theorem c3_witness :
    (EnsureRBACInstallerSet
        ⟨false, none, false, false, none,
          [⟨⟨"demo", "", "v2", "v2", false⟩, ⟨none, none, none, none, false, false⟩⟩]⟩
        "v2").2.1.nss =
      [⟨⟨"demo", "", "", "v2", false⟩, ⟨none, none, none, none, false, false⟩⟩] := by
  have h := (c3_version_gate.1
    ⟨false, none, false, false, none,
      [⟨⟨"demo", "", "v2", "v2", false⟩, ⟨none, none, none, none, false, false⟩⟩]⟩
    "v2" rfl).2.2.1
  exact h.trans (by decide)

/-! ### Claim C6 -/

theorem ensurePreRequisites_policy_violation (cfg : RConfig) (gs : GlobalState)
    (hiset : gs.isetExists = true) (hdef : cfg.sccDefault ≠ "")
    (hvdef : verifySCCExists cfg.sccList cfg.sccDefault = true)
    (hmax : cfg.sccMaxAllowed ≠ "")
    (hvmax : verifySCCExists cfg.sccList cfg.sccMaxAllowed = true)
    (hcmp : sccAMoreRestrictiveThanB cfg.sccList cfg.sccDefault cfg.sccMaxAllowed =
      Except.ok false) :
    ensurePreRequisites cfg gs = (Except.error RErr.policyViolation, gs, 0) := by
  simp [ensurePreRequisites, EnsureRBACInstallerSet, hiset, hdef, hvdef, hmax, hvmax, hcmp]

theorem ensurePreRequisites_ceiling_ok (cfg : RConfig) (gs : GlobalState)
    (hiset : gs.isetExists = true) (hdef : cfg.sccDefault ≠ "")
    (hvdef : verifySCCExists cfg.sccList cfg.sccDefault = true)
    (hceil : cfg.sccMaxAllowed = "" ∨
      (verifySCCExists cfg.sccList cfg.sccMaxAllowed = true ∧
        sccAMoreRestrictiveThanB cfg.sccList cfg.sccDefault cfg.sccMaxAllowed =
          Except.ok true)) :
    (ensurePreRequisites cfg gs).1 = Except.ok () ∧
    (ensurePreRequisites cfg gs).2.1 =
      { gs with sccClusterRole := some ⟨[cfg.ownerRef], cfg.sccDefault⟩ } := by
  rcases hceil with hceil | ⟨hvmax, hcmp⟩
  · constructor <;>
      simp [ensurePreRequisites, EnsureRBACInstallerSet, ensurePipelinesSCClusterRole,
        hiset, hdef, hvdef, hceil] <;>
      cases h : gs.sccClusterRole <;> simp [h]
  · by_cases hmax : cfg.sccMaxAllowed = ""
    · constructor <;>
        simp [ensurePreRequisites, EnsureRBACInstallerSet, ensurePipelinesSCClusterRole,
          hiset, hdef, hvdef, hmax] <;>
        cases h : gs.sccClusterRole <;> simp [h]
    · constructor <;>
        simp [ensurePreRequisites, EnsureRBACInstallerSet, ensurePipelinesSCClusterRole,
          hiset, hdef, hvdef, hmax, hvmax, hcmp] <;>
        cases h : gs.sccClusterRole <;> simp [h]

/-- Claim C6: ceiling validation is a once-per-pass, pass-fatal check.  When
a `maxAllowed` ceiling is set and is strictly more restrictive than the
default SCC (the priority comparison returns false), `ensurePreRequisites`
fails with the policy-violation error and the whole `createResources` pass
aborts before any namespace is processed, leaving the cluster state
untouched; when the ceiling is unset, or set and no more restrictive than
the default, the check passes (given the named SCCs exist on the
cluster). -/
theorem c6_ceiling_validation :
    (∀ (cfg : RConfig) (gs : GlobalState),
      cfg.params.any (fun p => p.name == rbacParamName && p.value == "false") = false →
      gs.isetExists = true →
      cfg.sccDefault ≠ "" →
      verifySCCExists cfg.sccList cfg.sccDefault = true →
      cfg.sccMaxAllowed ≠ "" →
      verifySCCExists cfg.sccList cfg.sccMaxAllowed = true →
      sccAMoreRestrictiveThanB cfg.sccList cfg.sccDefault cfg.sccMaxAllowed =
        Except.ok false →
      createResources cfg gs = ⟨Except.error RErr.policyViolation, gs, 0, [], []⟩) ∧
    (∀ (cfg : RConfig) (gs : GlobalState),
      gs.isetExists = true →
      cfg.sccDefault ≠ "" →
      verifySCCExists cfg.sccList cfg.sccDefault = true →
      (cfg.sccMaxAllowed = "" ∨
        (verifySCCExists cfg.sccList cfg.sccMaxAllowed = true ∧
          sccAMoreRestrictiveThanB cfg.sccList cfg.sccDefault cfg.sccMaxAllowed =
            Except.ok true)) →
      (ensurePreRequisites cfg gs).1 = Except.ok ()) := by
  constructor
  · intro cfg gs hflag hiset hdef hvdef hmax hvmax hcmp
    have hpre := ensurePreRequisites_policy_violation cfg gs hiset hdef hvdef hmax hvmax hcmp
    unfold createResources
    simp [hflag, hpre]
  · intro cfg gs hiset hdef hvdef hceil
    exact (ensurePreRequisites_ceiling_ok cfg gs hiset hdef hvdef hceil).1

/-- Witness for C6: a ceiling strictly more restrictive than the default
aborts the pass; a ceiling less restrictive than the default passes. -/
theorem c6_witness :
    createResources
        ⟨"v", [], "privileged", "restricted", ["restricted", "privileged"],
          ⟨"v1", "TektonInstallerSet", "o"⟩, ⟨"v1", "TektonConfig", "c"⟩⟩
        ⟨true, none, false, false, none, []⟩ =
      ⟨Except.error RErr.policyViolation, ⟨true, none, false, false, none, []⟩, 0, [], []⟩ ∧
    (ensurePreRequisites
        ⟨"v", [], "restricted", "privileged", ["restricted", "privileged"],
          ⟨"v1", "TektonInstallerSet", "o"⟩, ⟨"v1", "TektonConfig", "c"⟩⟩
        ⟨true, none, false, false, none, []⟩).1 = Except.ok () :=
  ⟨c6_ceiling_validation.1 _ _ rfl rfl (by decide) rfl (by decide) rfl rfl,
    c6_ceiling_validation.2 _ _ rfl (by decide) rfl (Or.inr ⟨rfl, rfl⟩)⟩

/-! ### Claim C7 -/

theorem rbacLoop_succ_metas (cfg : RConfig) (a b : Bool) :
    ∀ entries : List NsEntry,
      ((rbacLoop cfg a b entries).1).map (fun q => q.1.meta) =
        (entries.filter (fun e => rbacOk cfg a b e)).map (fun e => e.meta) := by
  intro entries
  induction entries with
  | nil => rfl
  | cons e rest ih =>
    rcases hp : processRBAC cfg a b e.meta e.obj with ⟨r, obj', uu⟩
    cases r with
    | ok sa =>
      have hok : rbacOk cfg a b e = true := by simp [rbacOk, hp]
      simp only [rbacLoop, hp, List.filter_cons, hok, if_true, List.map_cons]
      simpa using ih
    | error err =>
      have hok : rbacOk cfg a b e = false := by simp [rbacOk, hp]
      simp only [rbacLoop, hp, List.filter_cons, hok, Bool.false_eq_true, if_false]
      exact ih

theorem rbacLoop_fail_metas (cfg : RConfig) (a b : Bool) :
    ∀ entries : List NsEntry,
      ((rbacLoop cfg a b entries).2.1).map (fun q => q.meta) =
        (entries.filter (fun e => !(rbacOk cfg a b e))).map (fun e => e.meta) := by
  intro entries
  induction entries with
  | nil => rfl
  | cons e rest ih =>
    rcases hp : processRBAC cfg a b e.meta e.obj with ⟨r, obj', uu⟩
    cases r with
    | ok sa =>
      have hok : rbacOk cfg a b e = true := by simp [rbacOk, hp]
      simp only [rbacLoop, hp, List.filter_cons, hok, Bool.not_true, Bool.false_eq_true,
        if_false]
      exact ih
    | error err =>
      have hok : rbacOk cfg a b e = false := by simp [rbacOk, hp]
      simp only [rbacLoop, hp, List.filter_cons, hok, Bool.not_false, if_true,
        List.map_cons]
      simpa using ih

theorem rbacPhase_processed (cfg : RConfig) (gs : GlobalState) (rbacNs : List NsEntry) :
    (rbacPhase cfg gs rbacNs).2.2.1 = rbacNs.map (fun e => e.meta.name) := by
  rw [rbacPhase]
  dsimp only
  split <;> rfl

theorem rbacPhase_patched (cfg : RConfig) (gs : GlobalState) (rbacNs : List NsEntry) :
    (rbacPhase cfg gs rbacNs).2.2.2 =
      (rbacNs.filter (fun e =>
        rbacOk cfg gs.sccClusterRole.isSome gs.editClusterRoleExists e)).map
          (fun e => e.meta.name) := by
  rw [rbacPhase]
  dsimp only
  split
  · rename_i hemp
    have h := rbacLoop_succ_metas cfg gs.sccClusterRole.isSome gs.editClusterRoleExists rbacNs
    rw [List.isEmpty_iff] at hemp
    rw [hemp] at h
    simp only [List.map_nil] at h
    have h2 := h.symm
    rw [List.map_eq_nil_iff] at h2
    rw [h2]
    rfl
  · have h := rbacLoop_succ_metas cfg gs.sccClusterRole.isSome gs.editClusterRoleExists rbacNs
    have : ((rbacLoop cfg gs.sccClusterRole.isSome gs.editClusterRoleExists rbacNs).1.map
        (fun q => q.1.meta)).map (fun m => m.name) =
        ((rbacNs.filter (fun e =>
          rbacOk cfg gs.sccClusterRole.isSome gs.editClusterRoleExists e)).map
            (fun e => e.meta)).map (fun m => m.name) := by rw [h]
    simpa [List.map_map, Function.comp] using this

theorem mem_setNsEntries (nss updated : List NsEntry) (o : NsEntry)
    (ho : o ∈ setNsEntries nss updated) :
    ∃ o' ∈ nss, o.meta.name = o'.meta.name ∧ (o ∈ updated ∨ o = o') := by
  unfold setNsEntries at ho
  obtain ⟨o', ho', heq⟩ := List.mem_map.mp ho
  refine ⟨o', ho', ?_⟩
  rcases hf : updated.find? (fun e => e.meta.name == o'.meta.name) with _ | f
  · rw [hf] at heq
    subst heq
    exact ⟨rfl, Or.inr rfl⟩
  · rw [hf] at heq
    subst heq
    have hname := List.find?_some hf
    exact ⟨eq_of_beq hname, Or.inl (List.mem_of_find?_eq_some hf)⟩

theorem mem_caPhase (version : String) (caNames : List String) (nss : List NsEntry)
    (o : NsEntry) (ho : o ∈ (caPhase version caNames nss).1) :
    ∃ o' ∈ nss, o.meta.name = o'.meta.name ∧ o.meta.rbacLabel = o'.meta.rbacLabel := by
  unfold caPhase at ho
  simp only [List.mem_map] at ho
  obtain ⟨o', ho', heq⟩ := ho
  refine ⟨o', ho', ?_⟩
  subst heq
  split <;> simp [applyCA]

theorem mem_rbac_selection (cfg : RConfig) (nss : List NsEntry) (e : NsEntry)
    (he : e ∈ (getNamespacesToBeReconciled cfg nss).1) : e ∈ nss := by
  unfold getNamespacesToBeReconciled at he
  exact List.mem_of_mem_filter (List.mem_of_mem_filter he)

theorem handleClusterRoleBinding_nss (cfg : RConfig) (gs : GlobalState)
    (sas : List ServiceAccount) : (handleClusterRoleBinding cfg gs sas).1.nss = gs.nss := by
  unfold handleClusterRoleBinding
  by_cases h : gs.ciClusterRoleExists <;> simp only [h, if_true, if_false] <;> split <;> rfl

theorem names_inj (nss : List NsEntry)
    (hnodup : (nss.map (fun o => o.meta.name)).Nodup) (a : NsEntry) (ha : a ∈ nss)
    (b : NsEntry) (hb : b ∈ nss) (hab : a.meta.name = b.meta.name) : a = b :=
  List.inj_on_of_nodup_map hnodup ha hb hab

theorem rbacPhase_label_preserved (cfg : RConfig) (gs : GlobalState)
    (rbacNs : List NsEntry) (e : NsEntry)
    (hsub : ∀ s ∈ rbacNs, s ∈ gs.nss)
    (hnodup : (gs.nss.map (fun o => o.meta.name)).Nodup)
    (he : e ∈ rbacNs)
    (hbad : ∀ a b : Bool, rbacOk cfg a b e = false) :
    ∀ o ∈ (rbacPhase cfg gs rbacNs).1.nss,
      o.meta.name = e.meta.name → o.meta.rbacLabel = e.meta.rbacLabel := by
  have hgood : ∀ o : NsEntry,
      (o.meta ∈ ((rbacLoop cfg gs.sccClusterRole.isSome gs.editClusterRoleExists
        rbacNs).2.1).map (fun q => q.meta)) →
      o.meta.name = e.meta.name → o.meta.rbacLabel = e.meta.rbacLabel := by
    intro o ho hname
    rw [rbacLoop_fail_metas] at ho
    obtain ⟨s, hs, hmeta⟩ := List.mem_map.mp ho
    have hsmem := (List.mem_filter.mp hs).1
    have hse : s = e := names_inj gs.nss hnodup s (hsub s hsmem) e (hsub e he)
      (by rw [← hmeta] at hname; exact hname)
    rw [← hmeta, hse]
  have hnosucc : ∀ m : NsMeta,
      (m ∈ ((rbacLoop cfg gs.sccClusterRole.isSome gs.editClusterRoleExists
        rbacNs).1).map (fun q => q.1.meta)) → m.name ≠ e.meta.name := by
    intro m hm hname
    rw [rbacLoop_succ_metas] at hm
    obtain ⟨s, hs, hmeta⟩ := List.mem_map.mp hm
    have hsmem := (List.mem_filter.mp hs).1
    have hsok := (List.mem_filter.mp hs).2
    have hse : s = e := names_inj gs.nss hnodup s (hsub s hsmem) e (hsub e he)
      (by rw [hmeta]; exact hname)
    rw [hse] at hsok
    rw [hbad gs.sccClusterRole.isSome gs.editClusterRoleExists] at hsok
    exact Bool.false_ne_true hsok
  rw [rbacPhase]
  dsimp only
  split
  · -- no namespace succeeded: only the failed entries are written back
    intro o ho hname
    obtain ⟨o', ho', hno, hcase⟩ := mem_setNsEntries _ _ o ho
    rcases hcase with hupd | rfl
    · exact hgood o (List.mem_map_of_mem _ hupd) hname
    · have : o = e := names_inj gs.nss hnodup o ho' e (hsub e he) hname
      rw [this]
  · -- successful entries are patched, failed entries written back unchanged
    intro o ho hname
    rw [handleClusterRoleBinding_nss] at ho
    obtain ⟨o', ho', hno, hcase⟩ := mem_setNsEntries _ _ o ho
    rcases hcase with hupd | rfl
    · rcases List.mem_append.mp hupd with hpt | hfl
      · obtain ⟨q, hq, rfl⟩ := List.mem_map.mp hpt
        exact absurd hname (hnosucc q.1.meta (List.mem_map_of_mem _ hq))
      · exact hgood o (List.mem_map_of_mem _ hfl) hname
    · have : o = e := names_inj gs.nss hnodup o ho' e (hsub e he) hname
      rw [this]

theorem handleSCC_violation (cfg : RConfig) (nsName ann : String)
    (hann : ann ≠ "") (hv : verifySCCExists cfg.sccList ann = true)
    (hmax : cfg.sccMaxAllowed ≠ "")
    (hviol : sccAMoreRestrictiveThanB cfg.sccList ann cfg.sccMaxAllowed =
      Except.ok false) :
    ∀ obj : NsObjects, handleSCCInNamespace cfg nsName ann obj =
      (Except.error (RErr.nsPolicyViolation nsName ann), obj, 0) := by
  intro obj
  simp [handleSCCInNamespace, hann, hv, hmax, hviol]

theorem processRBAC_violation (cfg : RConfig) (a b : Bool) (meta : NsMeta)
    (obj : NsObjects)
    (hann : meta.ann ≠ "") (hv : verifySCCExists cfg.sccList meta.ann = true)
    (hmax : cfg.sccMaxAllowed ≠ "")
    (hviol : sccAMoreRestrictiveThanB cfg.sccList meta.ann cfg.sccMaxAllowed =
      Except.ok false) :
    (processRBAC cfg a b meta obj).1 =
      Except.error (RErr.nsPolicyViolation meta.name meta.ann) := by
  have hh := handleSCC_violation cfg meta.name meta.ann hann hv hmax hviol
  simp [processRBAC, hh]

theorem rbacOk_violation (cfg : RConfig) (e : NsEntry)
    (hann : e.meta.ann ≠ "") (hv : verifySCCExists cfg.sccList e.meta.ann = true)
    (hmax : cfg.sccMaxAllowed ≠ "")
    (hviol : sccAMoreRestrictiveThanB cfg.sccList e.meta.ann cfg.sccMaxAllowed =
      Except.ok false) :
    ∀ a b : Bool, rbacOk cfg a b e = false := by
  intro a b
  unfold rbacOk
  rw [processRBAC_violation cfg a b e.meta e.obj hann hv hmax hviol]

theorem createResources_run (cfg : RConfig) (gs : GlobalState)
    (hflag : cfg.params.any (fun p => p.name == rbacParamName && p.value == "false") = false)
    (hiset : gs.isetExists = true) (hdef : cfg.sccDefault ≠ "")
    (hvdef : verifySCCExists cfg.sccList cfg.sccDefault = true)
    (hceil : cfg.sccMaxAllowed = "" ∨
      (verifySCCExists cfg.sccList cfg.sccMaxAllowed = true ∧
        sccAMoreRestrictiveThanB cfg.sccList cfg.sccDefault cfg.sccMaxAllowed =
          Except.ok true))
    (hselne : (getNamespacesToBeReconciled cfg gs.nss).1 ≠ []) :
    (createResources cfg gs).res = Except.ok () ∧
    (createResources cfg gs).processed =
      (rbacPhase cfg { gs with sccClusterRole := some ⟨[cfg.ownerRef], cfg.sccDefault⟩ }
        (getNamespacesToBeReconciled cfg gs.nss).1).2.2.1 ∧
    (createResources cfg gs).patched =
      (rbacPhase cfg { gs with sccClusterRole := some ⟨[cfg.ownerRef], cfg.sccDefault⟩ }
        (getNamespacesToBeReconciled cfg gs.nss).1).2.2.2 ∧
    (∀ o ∈ (createResources cfg gs).gs.nss,
      ∃ o' ∈ (rbacPhase cfg
          { gs with sccClusterRole := some ⟨[cfg.ownerRef], cfg.sccDefault⟩ }
          (getNamespacesToBeReconciled cfg gs.nss).1).1.nss,
        o.meta.name = o'.meta.name ∧ o.meta.rbacLabel = o'.meta.rbacLabel) := by
  have hpre := ensurePreRequisites_ceiling_ok cfg gs hiset hdef hvdef hceil
  rcases hpr : ensurePreRequisites cfg gs with ⟨r1, gs1, u1⟩
  rw [hpr] at hpre
  obtain ⟨hr1, hgs1⟩ := hpre
  simp only at hr1 hgs1
  subst hr1
  subst hgs1
  have hempty : ((getNamespacesToBeReconciled cfg gs.nss).1.isEmpty) = false := by
    rw [List.isEmpty_eq_false]
    exact hselne
  unfold createResources
  simp only [hflag, Bool.not_false, Bool.not_true, Bool.and_false, Bool.false_eq_true,
    if_false, if_true, hpr]
  simp only [hempty, Bool.false_and, Bool.false_eq_true, if_false, Bool.not_false,
    Bool.true_and, if_true]
  refine ⟨trivial, trivial, trivial, ?_⟩
  intro o ho
  split at ho
  · obtain ⟨o', ho', h1, h2⟩ := mem_caPhase _ _ _ o ho
    exact ⟨o', ho', h1, h2⟩
  · exact ⟨o, ho, rfl, rfl⟩

/-- Claim C7: per-namespace ceiling violations are isolated.  For a selected
namespace whose SCC annotation names an existing policy strictly less
restrictive than the `maxAllowed` ceiling, `processRBAC` returns the
per-namespace policy-violation error; the pass as a whole still succeeds,
every selected namespace is attempted (the loop continues past the
failure), the failing namespace is excluded from the label-stamping step,
and its `rbac-version` label is left unchanged in the final cluster
state. -/
theorem c7_namespace_isolation (cfg : RConfig) (gs : GlobalState) (e : NsEntry)
    (hflag : cfg.params.any (fun p => p.name == rbacParamName && p.value == "false") = false)
    (hiset : gs.isetExists = true)
    (hdef : cfg.sccDefault ≠ "")
    (hvdef : verifySCCExists cfg.sccList cfg.sccDefault = true)
    (hvmax : verifySCCExists cfg.sccList cfg.sccMaxAllowed = true)
    (hcmpOK : sccAMoreRestrictiveThanB cfg.sccList cfg.sccDefault cfg.sccMaxAllowed =
      Except.ok true)
    (hsel : e ∈ (getNamespacesToBeReconciled cfg gs.nss).1)
    (hannne : e.meta.ann ≠ "")
    (hann : verifySCCExists cfg.sccList e.meta.ann = true)
    (hmax : cfg.sccMaxAllowed ≠ "")
    (hviol : sccAMoreRestrictiveThanB cfg.sccList e.meta.ann cfg.sccMaxAllowed =
      Except.ok false)
    (hnodup : (gs.nss.map (fun o => o.meta.name)).Nodup) :
    (∀ a b : Bool, (processRBAC cfg a b e.meta e.obj).1 =
      Except.error (RErr.nsPolicyViolation e.meta.name e.meta.ann)) ∧
    (createResources cfg gs).res = Except.ok () ∧
    (createResources cfg gs).processed =
      ((getNamespacesToBeReconciled cfg gs.nss).1).map (fun o => o.meta.name) ∧
    e.meta.name ∉ (createResources cfg gs).patched ∧
    (∀ o ∈ (createResources cfg gs).gs.nss, o.meta.name = e.meta.name →
      o.meta.rbacLabel = e.meta.rbacLabel) := by
  have hselne : (getNamespacesToBeReconciled cfg gs.nss).1 ≠ [] :=
    List.ne_nil_of_mem hsel
  have hrun := createResources_run cfg gs hflag hiset hdef hvdef
    (Or.inr ⟨hvmax, hcmpOK⟩) hselne
  have hbad := rbacOk_violation cfg e hannne hann hmax hviol
  have hsub : ∀ s ∈ (getNamespacesToBeReconciled cfg gs.nss).1,
      s ∈ ({ gs with sccClusterRole := some (Role.mk [cfg.ownerRef] cfg.sccDefault) } :
        GlobalState).nss :=
    fun s hs => mem_rbac_selection cfg gs.nss s hs
  refine ⟨fun a b => processRBAC_violation cfg a b e.meta e.obj hannne hann hmax hviol,
    hrun.1, ?_, ?_, ?_⟩
  · exact hrun.2.1.trans (rbacPhase_processed cfg _ _)
  · rw [hrun.2.2.1, rbacPhase_patched]
    intro hmem
    obtain ⟨s, hs, hsname⟩ := List.mem_map.mp hmem
    have hsmem := (List.mem_filter.mp hs).1
    have hsok := (List.mem_filter.mp hs).2
    have hse : s = e := names_inj gs.nss hnodup s (mem_rbac_selection cfg gs.nss s hsmem)
      e (mem_rbac_selection cfg gs.nss e hsel) hsname
    rw [hse] at hsok
    rw [hbad _ _] at hsok
    exact Bool.false_ne_true hsok
  · intro o ho hname
    obtain ⟨o', ho', hn, hl⟩ := hrun.2.2.2 o ho
    have hpres := rbacPhase_label_preserved cfg
      { gs with sccClusterRole := some (Role.mk [cfg.ownerRef] cfg.sccDefault) }
      (getNamespacesToBeReconciled cfg gs.nss).1 e hsub hnodup hsel hbad o' ho'
      (by rw [← hn]; exact hname)
    rw [hl, hpres]

/-- Witness for C7: namespace `demo` requests `privileged` against the
ceiling `restricted`; its reconciliation fails with the policy-violation
error and it is not label-stamped. -/
theorem c7_witness :
    (processRBAC
        ⟨"v", [], "restricted", "restricted", ["restricted", "privileged"],
          ⟨"v1", "TektonInstallerSet", "o"⟩, ⟨"v1", "TektonConfig", "c"⟩⟩
        true true ⟨"demo", "privileged", "", "", false⟩
        ⟨none, none, none, none, false, false⟩).1 =
      Except.error (RErr.nsPolicyViolation "demo" "privileged") ∧
    "demo" ∉ (createResources
        ⟨"v", [], "restricted", "restricted", ["restricted", "privileged"],
          ⟨"v1", "TektonInstallerSet", "o"⟩, ⟨"v1", "TektonConfig", "c"⟩⟩
        ⟨true, none, false, true, none,
          [⟨⟨"demo", "privileged", "", "", false⟩,
            ⟨none, none, none, none, false, false⟩⟩]⟩).patched := by
  have h := c7_namespace_isolation
    ⟨"v", [], "restricted", "restricted", ["restricted", "privileged"],
      ⟨"v1", "TektonInstallerSet", "o"⟩, ⟨"v1", "TektonConfig", "c"⟩⟩
    ⟨true, none, false, true, none,
      [⟨⟨"demo", "privileged", "", "", false⟩, ⟨none, none, none, none, false, false⟩⟩]⟩
    ⟨⟨"demo", "privileged", "", "", false⟩, ⟨none, none, none, none, false, false⟩⟩
    rfl rfl (by decide) rfl rfl rfl (by decide) (by decide) rfl (by decide) rfl (by decide)
  exact ⟨h.1 true true, h.2.2.2.1⟩

end RbacModel
